/-
Verification development for the PyMI repository core.

The MI layer (src/MI/MI++.h) ships only declarations: class `Instance` with
its `m_ownsInstance` flag, class `Operation` with the inline member
initializer `m_hasMoreResults = TRUE` and inline `operator bool`, class
`Session` with the declared default argument `dialect = L"WQL"`, and the
`MElementsEnum` access contract.  The member-function bodies are not part of
the source tree, so they are modelled here from the specification (spec.md),
each such definition carrying a doc comment starting `Modelled from the
spec:`.  The PyMI binding layer (src/PyMI/DestinationOptions.cpp) is present
in full and is embedded directly.
-/
import Mathlib

set_option autoImplicit false

namespace MI

/-- The engine's value payload (`MI_Value`), kept abstract: claims only move
values around, they never inspect them. -/
abbrev MI_Value := Nat

/-- `MI_Uint32` flag bits. -/
abbrev MI_Uint32 := Nat

/-- A small rendering of the engine's `MI_Type` tag enumeration; the claims
only ever compare types for compatibility. -/
inductive MI_Type where
  | boolean
  | uint32
  | sint64
  | real64
  | string
  | datetime
deriving DecidableEq

/-- One element of an Instance or Class: the (name, value, type, flags)
quadruple surfaced by `MElementsEnum::operator[]`. -/
structure MIElement where
  m_name : String
  m_value : MI_Value
  m_type : MI_Type
  m_flags : MI_Uint32
deriving DecidableEq

/-- The failure taxonomy of spec section 7 (only the constructors the claims
touch). -/
inductive MIError where
  | NotFound
  | IndexOutOfRange
  | TypeMismatch
  | DuplicateElement
  | ReadOnlyInstance
  | WrongResultKind
  | InvalidHandle
  | InvalidNamespace
  | InvalidQuery
  | UnsupportedDialect
deriving DecidableEq

/-- `MElementsEnum::GetElementsCount` over an element bag. -/
def getElementsCount (elems : List MIElement) : Nat := elems.length

/-- Modelled from the spec: `MElementsEnum::operator[](const wchar_t* name)`
(body absent from src) — name lookup returning (value, type, flags), failing
`NotFound` when no element has that name. -/
def getElementByName (elems : List MIElement) (name : String) :
    Except MIError (MI_Value × MI_Type × MI_Uint32) :=
  match elems.find? (fun e => e.m_name == name) with
  | some e => .ok (e.m_value, e.m_type, e.m_flags)
  | none => .error .NotFound

/-- Modelled from the spec: `MElementsEnum::operator[](unsigned index)` (body
absent from src) — index lookup returning (name, value, type, flags), failing
`IndexOutOfRange` when `index >= count()`. -/
def getElementByIndex (elems : List MIElement) (index : Nat) :
    Except MIError (String × MI_Value × MI_Type × MI_Uint32) :=
  match elems[index]? with
  | some e => .ok (e.m_name, e.m_value, e.m_type, e.m_flags)
  | none => .error .IndexOutOfRange

/-- The contents of one native `MI_Instance` allocation. -/
structure NativeInstanceData where
  elements : List MIElement
deriving DecidableEq

/-- The contents of one native `MI_Class` allocation (only its property
elements matter to the claims). -/
structure NativeClassData where
  elements : List MIElement
deriving DecidableEq

/-- The native engine's store of live `MI_Instance` allocations: an
association list from allocation ids to contents, plus the next fresh id. -/
structure Heap where
  cells : List (Nat × NativeInstanceData)
  next : Nat
deriving DecidableEq

/-- First-match dereference over the cell list. -/
def cellsLookup : List (Nat × NativeInstanceData) → Nat → Option NativeInstanceData
  | [], _ => none
  | c :: cs, p => if c.1 == p then some c.2 else cellsLookup cs p

/-- Key-preserving overwrite over the cell list. -/
def cellsUpdate : List (Nat × NativeInstanceData) → Nat → NativeInstanceData →
    List (Nat × NativeInstanceData)
  | [], _, _ => []
  | c :: cs, p, d => (if c.1 == p then (p, d) else c) :: cellsUpdate cs p d

/-- Dereference an allocation id. -/
def Heap.lookup (h : Heap) (p : Nat) : Option NativeInstanceData :=
  cellsLookup h.cells p

/-- Heap well-formedness: every live allocation id is below `next`, so a
fresh allocation never collides with a live one. -/
def Heap.WF (h : Heap) : Prop := ∀ c ∈ h.cells, c.1 < h.next

instance (h : Heap) : Decidable h.WF := by
  unfold Heap.WF; infer_instance

/-- Allocate a fresh native instance, returning its id. -/
def Heap.allocate (h : Heap) (d : NativeInstanceData) : Nat × Heap :=
  (h.next, { cells := (h.next, d) :: h.cells, next := h.next + 1 })

/-- Overwrite the contents of one allocation, leaving every other id
untouched. -/
def Heap.update (h : Heap) (p : Nat) (d : NativeInstanceData) : Heap :=
  { h with cells := cellsUpdate h.cells p d }

/-- Release one allocation (`MI_Instance_Delete`). -/
def Heap.release (h : Heap) (p : Nat) : Heap :=
  { h with cells := h.cells.filter (fun c => c.1 != p) }

/-- The `MI::Instance` wrapper exactly as laid out in src/MI/MI++.h lines
99-129: a native pointer, cached namespace and class name, and the
`m_ownsInstance` ownership flag (declared `= false` at line 105; the private
constructor at line 106 sets both the pointer and the flag). -/
structure Instance where
  m_instance : Nat
  m_namespace : String
  m_className : String
  m_ownsInstance : Bool
deriving DecidableEq

/-- Modelled from the spec: the destructor body (absent from src) — "releases
the underlying allocation iff ownership flag is true; otherwise a no-op".
Returns the list of release actions performed, so "exactly once" is
observable. -/
def Instance.deleteReleases (inst : Instance) : List Nat :=
  if inst.m_ownsInstance then [inst.m_instance] else []

/-- Modelled from the spec: destructor effect on the native store — the
owned allocation is released, a borrowed one is left alone. -/
def Instance.destroy (h : Heap) (inst : Instance) : Heap :=
  if inst.m_ownsInstance then h.release inst.m_instance else h

/-- Modelled from the spec: `Instance::Clone` (body absent from src) — "new,
independently owned Instance with the same element values, namespace, and
class name — never aliases the source's storage". -/
def Instance.Clone (h : Heap) (inst : Instance) :
    Except MIError (Instance × Heap) :=
  match h.lookup inst.m_instance with
  | none => .error .InvalidHandle
  | some d =>
    let a := h.allocate d
    .ok ({ m_instance := a.1, m_namespace := inst.m_namespace,
           m_className := inst.m_className, m_ownsInstance := true }, a.2)

/-- Modelled from the spec: type compatibility on `SetElement` — the spec
only says a value "incompatible with the element's declared type" is
rejected, so compatibility is declared-type equality. -/
def compatibleType (supplied declared : MI_Type) : Bool := supplied == declared

/-- Modelled from the spec: the native by-name element write — `NotFound` if
the name is absent, `TypeMismatch` if the supplied type is incompatible with
the declared type; the bag is only touched on success. -/
def NativeInstanceData.setElementName (d : NativeInstanceData) (name : String)
    (v : MI_Value) (t : MI_Type) : Except MIError NativeInstanceData :=
  match d.elements.find? (fun e => e.m_name == name) with
  | none => .error .NotFound
  | some e =>
    if compatibleType t e.m_type then
      .ok ⟨d.elements.map (fun x =>
        if x.m_name == name then { x with m_value := v, m_type := t } else x)⟩
    else .error .TypeMismatch

/-- Modelled from the spec: the native by-index element write —
`IndexOutOfRange` if `index >= count()`, `TypeMismatch` on an incompatible
type; the bag is only touched on success. -/
def NativeInstanceData.setElementIdx (d : NativeInstanceData) (index : Nat)
    (v : MI_Value) (t : MI_Type) : Except MIError NativeInstanceData :=
  match d.elements[index]? with
  | none => .error .IndexOutOfRange
  | some e =>
    if compatibleType t e.m_type then
      .ok ⟨d.elements.set index { e with m_value := v, m_type := t }⟩
    else .error .TypeMismatch

/-- Modelled from the spec: the null/default representation a cleared
element resets to. -/
def MI_Type.nullValue (_t : MI_Type) : MI_Value := 0

/-- Modelled from the spec: the native `ClearElement` — "resets element to
its type's null/default representation, never removes it from the element
set"; `NotFound` when the name is absent. -/
def NativeInstanceData.clearElementName (d : NativeInstanceData)
    (name : String) : Except MIError NativeInstanceData :=
  match d.elements.find? (fun e => e.m_name == name) with
  | none => .error .NotFound
  | some _ =>
    .ok ⟨d.elements.map (fun x =>
      if x.m_name == name then { x with m_value := x.m_type.nullValue } else x)⟩

/-- Modelled from the spec: the native `AddElement` — fails
`DuplicateElement` if the name is already present, otherwise appends. -/
def NativeInstanceData.addElement (d : NativeInstanceData) (name : String)
    (v : MI_Value) (t : MI_Type) : Except MIError NativeInstanceData :=
  match d.elements.find? (fun e => e.m_name == name) with
  | some _ => .error .DuplicateElement
  | none => .ok ⟨d.elements ++ [⟨name, v, t, 0⟩]⟩

/-- Modelled from the spec (section 4.2 side effect): "every mutating call on
a non-owned Instance must be permitted only if the underlying engine allows
in-place mutation of borrowed data; if not, implementations must fail
`ReadOnlyInstance`".  `engineAllows` is the engine's borrowed-mutation
capability; the guard is checked before anything else, and on any failure
the store is returned unchanged. -/
def Instance.mutateGuard (engineAllows : Bool) (inst : Instance) : Bool :=
  inst.m_ownsInstance || engineAllows

/-- Modelled from the spec: `Instance::SetElement(name, value, type)` (body
absent from src), with the section-4.2 borrowed-mutation guard first. -/
def Instance.SetElement (engineAllows : Bool) (h : Heap) (inst : Instance)
    (name : String) (v : MI_Value) (t : MI_Type) : Except MIError Unit × Heap :=
  if inst.mutateGuard engineAllows = false then (.error .ReadOnlyInstance, h)
  else
    match h.lookup inst.m_instance with
    | none => (.error .InvalidHandle, h)
    | some d =>
      match d.setElementName name v t with
      | .ok d2 => (.ok (), h.update inst.m_instance d2)
      | .error e => (.error e, h)

/-- Modelled from the spec: `Instance::SetElement(index, value, type)` (body
absent from src), with the section-4.2 borrowed-mutation guard first. -/
def Instance.SetElementIdx (engineAllows : Bool) (h : Heap) (inst : Instance)
    (index : Nat) (v : MI_Value) (t : MI_Type) : Except MIError Unit × Heap :=
  if inst.mutateGuard engineAllows = false then (.error .ReadOnlyInstance, h)
  else
    match h.lookup inst.m_instance with
    | none => (.error .InvalidHandle, h)
    | some d =>
      match d.setElementIdx index v t with
      | .ok d2 => (.ok (), h.update inst.m_instance d2)
      | .error e => (.error e, h)

/-- Modelled from the spec: `Instance::AddElement` (body absent from src),
with the section-4.2 borrowed-mutation guard first. -/
def Instance.AddElement (engineAllows : Bool) (h : Heap) (inst : Instance)
    (name : String) (v : MI_Value) (t : MI_Type) : Except MIError Unit × Heap :=
  if inst.mutateGuard engineAllows = false then (.error .ReadOnlyInstance, h)
  else
    match h.lookup inst.m_instance with
    | none => (.error .InvalidHandle, h)
    | some d =>
      match d.addElement name v t with
      | .ok d2 => (.ok (), h.update inst.m_instance d2)
      | .error e => (.error e, h)

/-- Modelled from the spec: `Instance::ClearElement(name)` (body absent from
src), with the section-4.2 borrowed-mutation guard first. -/
def Instance.ClearElement (engineAllows : Bool) (h : Heap) (inst : Instance)
    (name : String) : Except MIError Unit × Heap :=
  if inst.mutateGuard engineAllows = false then (.error .ReadOnlyInstance, h)
  else
    match h.lookup inst.m_instance with
    | none => (.error .InvalidHandle, h)
    | some d =>
      match d.clearElementName name with
      | .ok d2 => (.ok (), h.update inst.m_instance d2)
      | .error e => (.error e, h)

/-- `Instance::GetElementsCount` read through the native store. -/
def Instance.elemCount (h : Heap) (inst : Instance) : Except MIError Nat :=
  match h.lookup inst.m_instance with
  | none => .error .InvalidHandle
  | some d => .ok (getElementsCount d.elements)

/-- `Instance::operator[](name)` read through the native store. -/
def Instance.getByName (h : Heap) (inst : Instance) (name : String) :
    Except MIError (MI_Value × MI_Type × MI_Uint32) :=
  match h.lookup inst.m_instance with
  | none => .error .InvalidHandle
  | some d => getElementByName d.elements name

/-- `Instance::operator[](index)` read through the native store. -/
def Instance.getByIndex (h : Heap) (inst : Instance) (index : Nat) :
    Except MIError (String × MI_Value × MI_Type × MI_Uint32) :=
  match h.lookup inst.m_instance with
  | none => .error .InvalidHandle
  | some d => getElementByIndex d.elements index

/-- The `MI::Class` wrapper (src/MI/MI++.h lines 79-97).  A Class always
owns its schema allocation and no claim aliases it, so the allocation's
contents are carried by value. -/
structure Class where
  m_class : NativeClassData
deriving DecidableEq

/-- `Class::GetElementsCount`. -/
def Class.elemCount (c : Class) : Nat := getElementsCount c.m_class.elements

/-- `Class::operator[](name)`. -/
def Class.getByName (c : Class) (name : String) :
    Except MIError (MI_Value × MI_Type × MI_Uint32) :=
  getElementByName c.m_class.elements name

/-- `Class::operator[](index)`. -/
def Class.getByIndex (c : Class) (index : Nat) :
    Except MIError (String × MI_Value × MI_Type × MI_Uint32) :=
  getElementByIndex c.m_class.elements index

/-- Whether an Operation streams data instances or schema classes (spec
section 4.4: which pull method is valid is fixed by what produced the
Operation). -/
inductive MIResultKind where
  | instances
  | classes
deriving DecidableEq

/-- The two Operation states of spec section 4.4. -/
inductive OperationState where
  | Active
  | Exhausted
deriving DecidableEq

/-- One pending instance result: its namespace, class name, and contents. -/
abbrev InstItem := String × String × NativeInstanceData

/-- The `MI::Operation` wrapper (src/MI/MI++.h lines 131-145): the
`m_hasMoreResults` flag (member-initialized `TRUE` at line 136) plus the
engine-side cursor, modelled as the list of items the engine will still
deliver for the valid pull kind. -/
structure Operation where
  m_hasMoreResults : Bool
  m_kind : MIResultKind
  m_instStream : List InstItem
  m_classStream : List NativeClassData
deriving DecidableEq

/-- Construction of an Operation from a native cursor (constructor at line
135 of src/MI/MI++.h): the member initializer at line 136 sets
`m_hasMoreResults = TRUE`. -/
def Operation.create (kind : MIResultKind) (instStream : List InstItem)
    (classStream : List NativeClassData) : Operation :=
  { m_hasMoreResults := true, m_kind := kind,
    m_instStream := instStream, m_classStream := classStream }

/-- `Operation::operator bool()` as written inline at line 143 of
src/MI/MI++.h: `return m_hasMoreResults != FALSE;`. -/
def Operation.opBool (op : Operation) : Bool := op.m_hasMoreResults != false

/-- The state-machine view of the flag: `Active` while the flag is true,
`Exhausted` once it is false. -/
def Operation.state (op : Operation) : OperationState :=
  if op.m_hasMoreResults then .Active else .Exhausted

/-- Modelled from the spec: `Operation::GetNextInstance` (body absent from
src) — a pull while `Exhausted` is a well-defined no-op returning
end-of-stream; a pull of the wrong kind fails `WrongResultKind`; when the
engine reports no further items the flag transitions to `Exhausted`;
delivered items become freshly allocated, owned Instances. -/
def Operation.GetNextInstance (h : Heap) (op : Operation) :
    Except MIError (Option Instance) × Operation × Heap :=
  if op.m_hasMoreResults = false then (.ok none, op, h)
  else if op.m_kind != .instances then (.error .WrongResultKind, op, h)
  else
    match op.m_instStream with
    | [] => (.ok none, { op with m_hasMoreResults := false }, h)
    | item :: rest =>
      let a := h.allocate item.2.2
      (.ok (some { m_instance := a.1, m_namespace := item.1,
                   m_className := item.2.1, m_ownsInstance := true }),
       { op with m_instStream := rest }, a.2)

/-- Modelled from the spec: `Operation::GetNextClass` (body absent from src)
— same protocol as `GetNextInstance` over the schema stream; delivered
Classes are always owned. -/
def Operation.GetNextClass (op : Operation) :
    Except MIError (Option Class) × Operation :=
  if op.m_hasMoreResults = false then (.ok none, op)
  else if op.m_kind != .classes then (.error .WrongResultKind, op)
  else
    match op.m_classStream with
    | [] => (.ok none, { op with m_hasMoreResults := false })
    | c :: rest => (.ok (some ⟨c⟩), { op with m_classStream := rest })

/-- The `MI::Session` wrapper (src/MI/MI++.h lines 28-42).  The opaque
native engine behind the session answers each (namespace, query, dialect)
request either with the stream of results it will deliver, or with an
up-front rejection (spec section 4.5: `InvalidNamespace`, `InvalidQuery`,
or `UnsupportedDialect` surfaced synchronously). -/
structure Session where
  m_session : Nat
  engine : String → String → String → Except MIError (List InstItem)

/-- Modelled from the spec: `Session::ExecQuery` body (absent from src) —
"Operation in `Active` state bound to a data stream; fails
`InvalidNamespace`/`InvalidQuery`/`UnsupportedDialect` synchronously if the
engine rejects the request up front".  The declaration at line 37 of
src/MI/MI++.h carries the default argument `dialect = L"WQL"`. -/
def Session.ExecQuery (s : Session) (ns query dialect : String) :
    Except MIError Operation :=
  match s.engine ns query dialect with
  | .error e => .error e
  | .ok stream => .ok (Operation.create .instances stream [])

/-- The call form `ExecQuery(ns, query)` with the dialect omitted: C++
substitutes the declared default `L"WQL"` at the call site. -/
def Session.ExecQueryDefault (s : Session) (ns query : String) :
    Except MIError Operation :=
  s.ExecQuery ns query "WQL"

/-- Modelled from the spec: `Application::NewInstance` (body absent from
src) — "owned, empty Instance with elements pre-populated according to the
class schema". -/
def Application.NewInstance (h : Heap) (className : String)
    (schemaElements : List MIElement) : Instance × Heap :=
  let a := h.allocate ⟨schemaElements⟩
  ({ m_instance := a.1, m_namespace := "", m_className := className,
     m_ownsInstance := true }, a.2)

/-- The engine's `MI_DestinationOptions_ImpersonationType` enumeration from
the native MI.h header, values 0 (`Default`) through 4 (`Delegate`). -/
inductive MI_DestinationOptions_ImpersonationType where
  | Default
  | None
  | Identify
  | Impersonate
  | Delegate
deriving DecidableEq

/-- Numeric value of each enumerator. -/
def MI_DestinationOptions_ImpersonationType.toNat :
    MI_DestinationOptions_ImpersonationType → Nat
  | .Default => 0
  | .None => 1
  | .Identify => 2
  | .Impersonate => 3
  | .Delegate => 4

/-- The C cast `MI_DestinationOptions_ImpersonationType(i)` for in-range
values. -/
def MI_DestinationOptions_ImpersonationType.castNat (n : Nat) :
    MI_DestinationOptions_ImpersonationType :=
  match n with
  | 0 => .Default
  | 1 => .None
  | 2 => .Identify
  | 3 => .Impersonate
  | _ => .Delegate

end MI

namespace PyMI

/-- A thrown `std::exception`, identified by its message. -/
abbrev CppExc := String

/-- The Python-level error a binding function can leave set on return. -/
inductive PyErr where
  /-- `PyArg_ParseTupleAndKeywords` failed and set the argument error. -/
  | parseError
  /-- `SetPyException(ex)` recorded the caught C++ exception. -/
  | fromExc (ex : CppExc)
deriving DecidableEq

/-- Result of one call into a binding function: either a value with no
error set, or the NULL return with a Python error recorded. -/
inductive PyOutcome (α : Type) where
  | ok (a : α)
  | errNull (e : PyErr)
deriving DecidableEq

/-- `DestinationOptions_Clone` (src/PyMI/DestinationOptions.cpp lines
39-54): runs the native `Clone` inside try/catch; a caught `std::exception`
is recorded via `SetPyException` and NULL returned.  `nativeClone` is the
outcome of the underlying `MI::DestinationOptions::Clone` call, `α` the
handle type of the new wrapper. -/
def DestinationOptions_Clone {α : Type} (nativeClone : Except CppExc α) :
    PyOutcome α :=
  match nativeClone with
  | .ok d => .ok d
  | .error ex => .errNull (.fromExc ex)

/-- `DestinationOptions_GetUILocale` (lines 56-72): same try/catch shape,
returning the locale string on success. -/
def DestinationOptions_GetUILocale (nativeGet : Except CppExc String) :
    PyOutcome String :=
  match nativeGet with
  | .ok locale => .ok locale
  | .error ex => .errNull (.fromExc ex)

/-- `DestinationOptions_SetUILocale` (lines 74-93): argument parsing happens
before the try block — a parse failure returns NULL with the parse error
set; then the native setter runs inside try/catch and success returns
`None` (modelled as `ok ()`). -/
def DestinationOptions_SetUILocale (args : Option String)
    (nativeSet : String → Except CppExc Unit) : PyOutcome Unit :=
  match args with
  | none => .errNull .parseError
  | some locale =>
    match nativeSet locale with
    | .ok _ => .ok ()
    | .error ex => .errNull (.fromExc ex)

/-- The `impersEnum` string table of DestinationOptions.cpp line 99. -/
def impersEnum : List String :=
  ["default", "none", "identify", "impersonate", "delegate"]

/-- The scan loop of DestinationOptions.cpp lines 104-111:
`impersonationType` starts as `MI_DestinationOptions_ImpersonationType_None`;
`i` runs from 0 while `i <= MI_DestinationOptions_ImpersonationType_Delegate`
(numeric value 4, so the loop visits exactly the five entries of
`impersEnum`); the first `wcscmp` match casts `i` to the enum and breaks; no
match leaves the initial `None`.  Rendered as a structural scan over the
remaining entries, `i` being the index of the entry at the head. -/
def impersLoop (impersonationLevel : String) :
    List String → Nat → MI.MI_DestinationOptions_ImpersonationType
  | [], _ => .None
  | e :: rest, i =>
    if e == impersonationLevel then
      MI.MI_DestinationOptions_ImpersonationType.castNat i
    else impersLoop impersonationLevel rest (i + 1)

/-- The impersonation type `DestinationOptions_SetImpersonationType` passes
to the native setter for a given argument string. -/
def impersLookup (impersonationLevel : String) :
    MI.MI_DestinationOptions_ImpersonationType :=
  impersLoop impersonationLevel impersEnum 0

/-- `DestinationOptions_SetImpersonationType` (lines 95-124): parse the
string argument (NULL + parse error on failure), translate it through the
scan loop, call the native setter inside try/catch.  Returns the call
outcome together with the enum value handed to the native setter (`none`
when parsing failed and the setter was never reached). -/
def DestinationOptions_SetImpersonationType (args : Option String)
    (nativeSet : MI.MI_DestinationOptions_ImpersonationType → Except CppExc Unit) :
    PyOutcome Unit × Option MI.MI_DestinationOptions_ImpersonationType :=
  match args with
  | none => (.errNull .parseError, none)
  | some impersonationLevel =>
    let t := impersLookup impersonationLevel
    match nativeSet t with
    | .ok _ => (.ok (), some t)
    | .error ex => (.errNull (.fromExc ex), some t)

end PyMI

namespace Examples

/-- A concrete two-element native instance used to exercise the theorems. -/
def dEx : MI.NativeInstanceData :=
  ⟨[⟨"P", 1, .uint32, 0⟩, ⟨"Q", 2, .boolean, 7⟩]⟩

/-- A one-allocation native store holding `dEx` at id 0. -/
def hEx : MI.Heap := ⟨[(0, dEx)], 1⟩

/-- An owned wrapper over allocation 0. -/
def instEx : MI.Instance := ⟨0, "root", "Widget", true⟩

/-- A borrowed wrapper over allocation 0. -/
def instExB : MI.Instance := ⟨0, "root", "Widget", false⟩

/-- A concrete schema object. -/
def clsEx : MI.Class := ⟨⟨[⟨"P", 3, .uint32, 0⟩, ⟨"R", 4, .string, 1⟩]⟩⟩

/-- An Operation already in the `Exhausted` state; the leftover engine items
witness that an exhausted cursor returns nothing even when the engine side
still holds data. -/
def opExh : MI.Operation := ⟨false, .instances, [("root", "Widget", dEx)], []⟩

/-- The wrapper `Instance.Clone hEx instEx` hands back. -/
def cEx : MI.Instance := ⟨1, "root", "Widget", true⟩

/-- The store after that clone. -/
def hEx2 : MI.Heap := ⟨[(1, dEx), (0, dEx)], 2⟩

/-- A session whose engine accepts every request with a one-item stream. -/
def sesEx : MI.Session := ⟨0, fun _ _ _ => .ok [("root", "Widget", dEx)]⟩

/-- A session whose engine rejects every request up front. -/
def sesExBad : MI.Session := ⟨1, fun _ _ _ => .error .InvalidQuery⟩

end Examples

namespace MI

theorem cellsLookup_update_ne (cells : List (Nat × NativeInstanceData))
    (p q : Nat) (d : NativeInstanceData) (hq : q ≠ p) :
    cellsLookup (cellsUpdate cells p d) q = cellsLookup cells q := by
  induction cells with
  | nil => rfl
  | cons c cs ih =>
    rcases c with ⟨k, dc⟩
    by_cases hk : k = p
    · subst hk
      have h1 : (k == q) = false := by simpa using fun hh => hq hh.symm
      simp [cellsUpdate, cellsLookup, h1, ih]
    · by_cases hkq : k = q
      · subst hkq
        simp [cellsUpdate, cellsLookup, hk]
      · simp [cellsUpdate, cellsLookup, hk, hkq, ih]

theorem lookup_update_ne (h : Heap) (p q : Nat) (d : NativeInstanceData)
    (hq : q ≠ p) : (h.update p d).lookup q = h.lookup q :=
  cellsLookup_update_ne h.cells p q d hq

theorem lookup_allocate_self (h : Heap) (d : NativeInstanceData) :
    (h.allocate d).2.lookup (h.allocate d).1 = some d := by
  simp [Heap.allocate, Heap.lookup, cellsLookup]

theorem lookup_allocate_ne (h : Heap) (d : NativeInstanceData) (q : Nat)
    (hq : q ≠ h.next) : (h.allocate d).2.lookup q = h.lookup q := by
  have h1 : (h.next == q) = false := by simpa using fun hh => hq hh.symm
  simp [Heap.allocate, Heap.lookup, cellsLookup, h1]

theorem cellsLookup_lt (cells : List (Nat × NativeInstanceData)) (bound p : Nat)
    (d : NativeInstanceData) (hwf : ∀ c ∈ cells, c.1 < bound)
    (hl : cellsLookup cells p = some d) : p < bound := by
  induction cells with
  | nil => cases hl
  | cons c cs ih =>
    by_cases hk : c.1 = p
    · exact hk ▸ hwf c (List.mem_cons_self c cs)
    · have h1 : (c.1 == p) = false := by simpa using hk
      rw [cellsLookup, h1] at hl
      exact ih (fun x hx => hwf x (List.mem_cons_of_mem c hx)) (by simpa using hl)

theorem lookup_lt_next (h : Heap) (hwf : h.WF) (p : Nat)
    (d : NativeInstanceData) (hl : h.lookup p = some d) : p < h.next :=
  cellsLookup_lt h.cells h.next p d hwf hl

theorem setElement_heap_cases (eng : Bool) (h : Heap) (inst : Instance)
    (name : String) (v : MI_Value) (t : MI_Type) :
    (Instance.SetElement eng h inst name v t).2 = h ∨
    ∃ d2, (Instance.SetElement eng h inst name v t).2 =
      h.update inst.m_instance d2 := by
  unfold Instance.SetElement
  split
  · exact Or.inl rfl
  · cases h.lookup inst.m_instance with
    | none => exact Or.inl rfl
    | some d =>
      simp only
      cases d.setElementName name v t with
      | ok d2 => exact Or.inr ⟨d2, rfl⟩
      | error e => exact Or.inl rfl

theorem setElementIdx_heap_cases (eng : Bool) (h : Heap) (inst : Instance)
    (index : Nat) (v : MI_Value) (t : MI_Type) :
    (Instance.SetElementIdx eng h inst index v t).2 = h ∨
    ∃ d2, (Instance.SetElementIdx eng h inst index v t).2 =
      h.update inst.m_instance d2 := by
  unfold Instance.SetElementIdx
  split
  · exact Or.inl rfl
  · cases h.lookup inst.m_instance with
    | none => exact Or.inl rfl
    | some d =>
      simp only
      cases d.setElementIdx index v t with
      | ok d2 => exact Or.inr ⟨d2, rfl⟩
      | error e => exact Or.inl rfl

theorem clearElement_heap_cases (eng : Bool) (h : Heap) (inst : Instance)
    (name : String) :
    (Instance.ClearElement eng h inst name).2 = h ∨
    ∃ d2, (Instance.ClearElement eng h inst name).2 =
      h.update inst.m_instance d2 := by
  unfold Instance.ClearElement
  split
  · exact Or.inl rfl
  · cases h.lookup inst.m_instance with
    | none => exact Or.inl rfl
    | some d =>
      simp only
      cases d.clearElementName name with
      | ok d2 => exact Or.inr ⟨d2, rfl⟩
      | error e => exact Or.inl rfl

theorem setElement_lookup_ne (eng : Bool) (h : Heap) (inst : Instance)
    (name : String) (v : MI_Value) (t : MI_Type) (q : Nat)
    (hq : q ≠ inst.m_instance) :
    (Instance.SetElement eng h inst name v t).2.lookup q = h.lookup q := by
  rcases setElement_heap_cases eng h inst name v t with he | ⟨d2, he⟩
  · rw [he]
  · rw [he, lookup_update_ne h inst.m_instance q d2 hq]

theorem setElementIdx_lookup_ne (eng : Bool) (h : Heap) (inst : Instance)
    (index : Nat) (v : MI_Value) (t : MI_Type) (q : Nat)
    (hq : q ≠ inst.m_instance) :
    (Instance.SetElementIdx eng h inst index v t).2.lookup q = h.lookup q := by
  rcases setElementIdx_heap_cases eng h inst index v t with he | ⟨d2, he⟩
  · rw [he]
  · rw [he, lookup_update_ne h inst.m_instance q d2 hq]

theorem clearElement_lookup_ne (eng : Bool) (h : Heap) (inst : Instance)
    (name : String) (q : Nat) (hq : q ≠ inst.m_instance) :
    (Instance.ClearElement eng h inst name).2.lookup q = h.lookup q := by
  rcases clearElement_heap_cases eng h inst name with he | ⟨d2, he⟩
  · rw [he]
  · rw [he, lookup_update_ne h inst.m_instance q d2 hq]

theorem find_name_of_mem_nodup (elems : List MIElement) (e : MIElement)
    (hn : (elems.map (fun x => x.m_name)).Nodup) (he : e ∈ elems) :
    elems.find? (fun x => x.m_name == e.m_name) = some e := by
  induction elems with
  | nil => cases he
  | cons a l ih =>
    rw [List.map_cons, List.nodup_cons] at hn
    rcases List.mem_cons.mp he with rfl | hm
    · exact List.find?_cons_of_pos l (by simp)
    · have hne : a.m_name ≠ e.m_name := fun hEq =>
        hn.1 (hEq ▸ List.mem_map_of_mem (fun x => x.m_name) hm)
      rw [List.find?_cons_of_neg l (by simpa using hne)]
      exact ih hn.2 hm

/-- The generic Element-Access agreement over one element bag with unique
names: index access is defined exactly below the count, name access exactly
on present names, the two enumerate the same elements, and distinct indices
carry distinct names. -/
theorem elementAccessAgreement (elems : List MIElement)
    (hn : (elems.map (fun x => x.m_name)).Nodup) :
    (∀ i, (∃ r, getElementByIndex elems i = .ok r) ↔ i < getElementsCount elems) ∧
    (∀ i, getElementByIndex elems i = .error .IndexOutOfRange ↔
      getElementsCount elems ≤ i) ∧
    (∀ name, (∃ r, getElementByName elems name = .ok r) ↔
      ∃ e ∈ elems, e.m_name = name) ∧
    (∀ name, getElementByName elems name = .error .NotFound ↔
      ¬ ∃ e ∈ elems, e.m_name = name) ∧
    (∀ i (hi : i < elems.length),
      getElementByIndex elems i = .ok ((elems.get ⟨i, hi⟩).m_name,
        (elems.get ⟨i, hi⟩).m_value, (elems.get ⟨i, hi⟩).m_type,
        (elems.get ⟨i, hi⟩).m_flags) ∧
      getElementByName elems (elems.get ⟨i, hi⟩).m_name =
        .ok ((elems.get ⟨i, hi⟩).m_value, (elems.get ⟨i, hi⟩).m_type,
          (elems.get ⟨i, hi⟩).m_flags)) ∧
    (∀ i j (hi : i < elems.length) (hj : j < elems.length),
      (elems.get ⟨i, hi⟩).m_name = (elems.get ⟨j, hj⟩).m_name → i = j) := by
  refine ⟨?_, ?_, ?_, ?_, ?_, ?_⟩
  · intro i
    constructor
    · rintro ⟨r, hr⟩
      by_contra hge
      simp only [getElementsCount] at hge
      rw [getElementByIndex, List.getElem?_eq_none (by omega)] at hr
      cases hr
    · intro hlt
      rw [getElementByIndex]
      rw [List.getElem?_eq_getElem hlt]
      exact ⟨_, rfl⟩
  · intro i
    constructor
    · intro hr
      by_contra hlt
      simp only [getElementsCount] at hlt
      rw [getElementByIndex, List.getElem?_eq_getElem (by omega)] at hr
      cases hr
    · intro hge
      rw [getElementByIndex, List.getElem?_eq_none hge]
  · intro name
    constructor
    · rintro ⟨r, hr⟩
      rw [getElementByName] at hr
      cases hf : elems.find? (fun x => x.m_name == name) with
      | none => rw [hf] at hr; cases hr
      | some e =>
        have hm := List.mem_of_find?_eq_some hf
        have hp := List.find?_some hf
        exact ⟨e, hm, by simpa using hp⟩
    · rintro ⟨e, hm, rfl⟩
      rw [getElementByName, find_name_of_mem_nodup elems e hn hm]
      exact ⟨_, rfl⟩
  · intro name
    constructor
    · intro hr
      rintro ⟨e, hm, rfl⟩
      rw [getElementByName, find_name_of_mem_nodup elems e hn hm] at hr
      cases hr
    · intro habs
      rw [getElementByName]
      cases hf : elems.find? (fun x => x.m_name == name) with
      | none => rfl
      | some e =>
        have hm := List.mem_of_find?_eq_some hf
        have hp := List.find?_some hf
        exact absurd ⟨e, hm, by simpa using hp⟩ habs
  · intro i hi
    constructor
    · rw [getElementByIndex, List.getElem?_eq_getElem hi]
      rfl
    · rw [getElementByName,
        find_name_of_mem_nodup elems (elems.get ⟨i, hi⟩) hn (List.get_mem elems i hi)]
  · intro i j hi hj hname
    have := List.Nodup.get_inj_iff (l := elems.map (fun x => x.m_name)) hn
      (i := ⟨i, by simpa using hi⟩) (j := ⟨j, by simpa using hj⟩)
    have hg : (elems.map (fun x => x.m_name)).get ⟨i, by simpa using hi⟩ =
        (elems.map (fun x => x.m_name)).get ⟨j, by simpa using hj⟩ := by
      simpa [List.getElem_map] using hname
    simpa using this.mp hg

end MI

/-- C1: For every Instance — whether produced by Clone, Application.NewInstance,
or an Operation pull — destruction releases the underlying native allocation
iff the ownership flag is true: exactly one release of the instance's
allocation when the flag is true, and no release action at all when the flag
is false; and each of those three producers hands back an Instance whose
ownership flag is true. -/
theorem C1_destruction_releases_iff_owned :
    ∀ (h : MI.Heap) (inst : MI.Instance),
      (inst.m_ownsInstance = true →
        MI.Instance.deleteReleases inst = [inst.m_instance] ∧
        (MI.Instance.deleteReleases inst).count inst.m_instance = 1 ∧
        MI.Instance.destroy h inst = h.release inst.m_instance) ∧
      (inst.m_ownsInstance = false →
        MI.Instance.deleteReleases inst = [] ∧
        MI.Instance.destroy h inst = h) ∧
      (∀ c h2, MI.Instance.Clone h inst = .ok (c, h2) →
        c.m_ownsInstance = true) ∧
      (∀ cn sch,
        ((MI.Application.NewInstance h cn sch).1).m_ownsInstance = true) ∧
      (∀ op i, (MI.Operation.GetNextInstance h op).1 = .ok (some i) →
        i.m_ownsInstance = true) := by
  intro h inst
  refine ⟨?_, ?_, ?_, ?_, ?_⟩
  · intro ho
    unfold MI.Instance.deleteReleases MI.Instance.destroy
    rw [ho]
    simp
  · intro ho
    unfold MI.Instance.deleteReleases MI.Instance.destroy
    rw [ho]
    simp
  · intro c h2 hc
    unfold MI.Instance.Clone at hc
    split at hc
    · cases hc
    · simp only [Except.ok.injEq, Prod.mk.injEq] at hc
      rw [← hc.1]
  · intro cn sch
    rfl
  · intro op i hg
    unfold MI.Operation.GetNextInstance at hg
    split at hg
    · simp at hg
    · split at hg
      · simp at hg
      · split at hg
        · simp at hg
        · simp only [Except.ok.injEq, Option.some.injEq] at hg
          rw [← hg]

/-- Witness for C1: the owned wrapper releases its allocation exactly once,
the borrowed wrapper releases nothing, and a concrete clone, NewInstance
call, and Operation pull all return owned Instances. -/
theorem C1_destruction_releases_iff_owned_witness :
    Examples.instEx.m_ownsInstance = true ∧
    MI.Instance.deleteReleases Examples.instEx = [Examples.instEx.m_instance] ∧
    Examples.instExB.m_ownsInstance = false ∧
    MI.Instance.deleteReleases Examples.instExB = [] ∧
    Examples.cEx.m_ownsInstance = true ∧
    ((MI.Application.NewInstance Examples.hEx "Widget" []).1).m_ownsInstance = true := by
  have hT := C1_destruction_releases_iff_owned Examples.hEx Examples.instEx
  have hB := C1_destruction_releases_iff_owned Examples.hEx Examples.instExB
  exact ⟨rfl, (hT.1 rfl).1, rfl, (hB.2.1 rfl).1,
    hT.2.2.1 Examples.cEx Examples.hEx2 rfl,
    hT.2.2.2.1 "Widget" []⟩

/-- C2: once an Operation is `Exhausted` (its "has more results" flag is
false), both pull methods are well-defined no-ops returning end-of-stream:
they return `ok none` (never an item, never an error) and leave the
Operation and the native store unchanged — so every subsequent pull behaves
identically and no previously returned item can ever be re-returned. -/
theorem C2_pull_after_exhaustion_is_noop :
    ∀ (h : MI.Heap) (op : MI.Operation),
      op.m_hasMoreResults = false →
      op.state = .Exhausted ∧
      MI.Operation.GetNextInstance h op = (.ok none, op, h) ∧
      MI.Operation.GetNextClass op = (.ok none, op) := by
  intro h op hex
  refine ⟨?_, ?_, ?_⟩
  · simp [MI.Operation.state, hex]
  · simp [MI.Operation.GetNextInstance, hex]
  · simp [MI.Operation.GetNextClass, hex]

/-- Witness for C2: a concrete exhausted Operation whose engine side still
holds an item returns end-of-stream from both pull methods without touching
anything. -/
theorem C2_pull_after_exhaustion_is_noop_witness :
    Examples.opExh.m_hasMoreResults = false ∧
    MI.Operation.GetNextInstance Examples.hEx Examples.opExh =
      (.ok none, Examples.opExh, Examples.hEx) ∧
    MI.Operation.GetNextClass Examples.opExh = (.ok none, Examples.opExh) := by
  have hT := C2_pull_after_exhaustion_is_noop Examples.hEx Examples.opExh rfl
  exact ⟨rfl, hT.2.1, hT.2.2⟩

/-- C7: every freshly created Operation carries the boolean "has more
results" flag initialized to true (the `m_hasMoreResults = TRUE` member
initializer), and `operator bool` yields exactly that flag: true while
`Active`, false once `Exhausted`. -/
theorem C7_operation_bool_is_has_more_results :
    ∀ (kind : MI.MIResultKind) (instStream : List MI.InstItem)
      (classStream : List MI.NativeClassData) (op : MI.Operation),
      (MI.Operation.create kind instStream classStream).m_hasMoreResults = true ∧
      MI.Operation.opBool op = op.m_hasMoreResults ∧
      (MI.Operation.opBool op = true ↔ op.state = .Active) ∧
      (MI.Operation.opBool op = false ↔ op.state = .Exhausted) := by
  intro kind instStream classStream op
  refine ⟨rfl, ?_, ?_, ?_⟩ <;>
    cases hb : op.m_hasMoreResults <;>
      simp [MI.Operation.opBool, MI.Operation.state, hb]

/-- C8: `ExecQuery` called without a dialect behaves identically to calling
it with the declared default dialect string "WQL" (the C++ default argument
at line 37 of src/MI/MI++.h); whenever the engine accepts the request the
call returns an Operation in the `Active` state, and whenever the engine
rejects it up front the call fails synchronously with that same error
(spec section 4.5). -/
theorem C8_execquery_default_dialect_is_wql_and_active :
    ∀ (s : MI.Session) (ns query : String),
      MI.Session.ExecQueryDefault s ns query =
        MI.Session.ExecQuery s ns query "WQL" ∧
      (∀ op, MI.Session.ExecQuery s ns query "WQL" = .ok op →
        op.state = .Active ∧ op.m_hasMoreResults = true) ∧
      (∀ e, s.engine ns query "WQL" = .error e →
        MI.Session.ExecQuery s ns query "WQL" = .error e) := by
  intro s ns query
  refine ⟨rfl, ?_, ?_⟩
  · intro op hop
    unfold MI.Session.ExecQuery at hop
    split at hop
    · cases hop
    · simp only [Except.ok.injEq] at hop
      rw [← hop]
      exact ⟨rfl, rfl⟩
  · intro e he
    unfold MI.Session.ExecQuery
    rw [he]

/-- Witness for C8: a concrete session whose engine accepts the request
yields an Active Operation through the dialect-defaulted call, and one
whose engine rejects it fails synchronously with the engine's error. -/
theorem C8_execquery_default_dialect_is_wql_and_active_witness :
    MI.Session.ExecQueryDefault Examples.sesEx "root" "SELECT * FROM Widget" =
      MI.Session.ExecQuery Examples.sesEx "root" "SELECT * FROM Widget" "WQL" ∧
    MI.Session.ExecQuery Examples.sesEx "root" "SELECT * FROM Widget" "WQL" =
      .ok (MI.Operation.create .instances [("root", "Widget", Examples.dEx)] []) ∧
    (MI.Operation.create .instances [("root", "Widget", Examples.dEx)] []).state =
      .Active ∧
    Examples.sesExBad.engine "root" "bad query" "WQL" = .error .InvalidQuery ∧
    MI.Session.ExecQuery Examples.sesExBad "root" "bad query" "WQL" =
      .error .InvalidQuery := by
  have hT := C8_execquery_default_dialect_is_wql_and_active Examples.sesEx
    "root" "SELECT * FROM Widget"
  have hB := C8_execquery_default_dialect_is_wql_and_active Examples.sesExBad
    "root" "bad query"
  exact ⟨hT.1, rfl,
    (hT.2.1 (MI.Operation.create .instances [("root", "Widget", Examples.dEx)] [])
      rfl).1,
    rfl, hB.2.2 MI.MIError.InvalidQuery rfl⟩

/-- C4: on a non-owned (borrowed) Instance, when the engine does not allow
in-place mutation of borrowed data, every mutating call — SetElement (by
name or index), AddElement, ClearElement — fails `ReadOnlyInstance` and
leaves the native store untouched; and a mutating call on a borrowed
Instance escapes that failure only when the engine allows it. -/
theorem C4_borrowed_mutation_requires_engine_permission :
    ∀ (engineAllows : Bool) (h : MI.Heap) (inst : MI.Instance) (name : String)
      (index : Nat) (v : MI.MI_Value) (t : MI.MI_Type),
      (inst.m_ownsInstance = false → engineAllows = false →
        MI.Instance.SetElement engineAllows h inst name v t =
          (.error .ReadOnlyInstance, h) ∧
        MI.Instance.SetElementIdx engineAllows h inst index v t =
          (.error .ReadOnlyInstance, h) ∧
        MI.Instance.AddElement engineAllows h inst name v t =
          (.error .ReadOnlyInstance, h) ∧
        MI.Instance.ClearElement engineAllows h inst name =
          (.error .ReadOnlyInstance, h)) ∧
      (inst.m_ownsInstance = false →
        (MI.Instance.SetElement engineAllows h inst name v t).1 ≠
          .error .ReadOnlyInstance →
        engineAllows = true) := by
  intro eng h inst name index v t
  constructor
  · intro ho he
    have hg : inst.mutateGuard eng = false := by
      simp [MI.Instance.mutateGuard, ho, he]
    refine ⟨?_, ?_, ?_, ?_⟩ <;>
      simp [MI.Instance.SetElement, MI.Instance.SetElementIdx,
        MI.Instance.AddElement, MI.Instance.ClearElement, hg]
  · intro ho hne
    cases eng with
    | true => rfl
    | false =>
      exfalso
      apply hne
      have hg : inst.mutateGuard false = false := by
        simp [MI.Instance.mutateGuard, ho]
      simp [MI.Instance.SetElement, hg]

/-- Witness for C4: a borrowed wrapper with the engine disallowing borrowed
mutation fails every mutating call with `ReadOnlyInstance`. -/
theorem C4_borrowed_mutation_requires_engine_permission_witness :
    Examples.instExB.m_ownsInstance = false ∧
    MI.Instance.SetElement false Examples.hEx Examples.instExB "P" 9 .uint32 =
      (.error .ReadOnlyInstance, Examples.hEx) ∧
    MI.Instance.SetElementIdx false Examples.hEx Examples.instExB 0 9 .uint32 =
      (.error .ReadOnlyInstance, Examples.hEx) ∧
    MI.Instance.AddElement false Examples.hEx Examples.instExB "P" 9 .uint32 =
      (.error .ReadOnlyInstance, Examples.hEx) ∧
    MI.Instance.ClearElement false Examples.hEx Examples.instExB "P" =
      (.error .ReadOnlyInstance, Examples.hEx) := by
  have hT := C4_borrowed_mutation_requires_engine_permission false Examples.hEx
    Examples.instExB "P" 0 9 MI.MI_Type.uint32
  exact ⟨rfl, (hT.1 rfl rfl).1, (hT.1 rfl rfl).2.1, (hT.1 rfl rfl).2.2.1,
    (hT.1 rfl rfl).2.2.2⟩

/-- C6: on any Instance on which mutation is permitted (the section-4.2
borrowed-mutation guard passes), SetElement fails `NotFound` when the name
is absent, `IndexOutOfRange` when the index is at least `count()`, and
`TypeMismatch` when the supplied type is incompatible with the element's
declared type; on a `TypeMismatch` failure the store — hence the element's
prior value — is left unchanged. -/
theorem C6_setelement_failure_taxonomy :
    ∀ (engineAllows : Bool) (h : MI.Heap) (inst : MI.Instance)
      (d : MI.NativeInstanceData) (name : String) (index : Nat)
      (v : MI.MI_Value) (t : MI.MI_Type),
      MI.Instance.mutateGuard engineAllows inst = true →
      h.lookup inst.m_instance = some d →
      ((∀ e ∈ d.elements, e.m_name ≠ name) →
        MI.Instance.SetElement engineAllows h inst name v t =
          (.error .NotFound, h)) ∧
      (MI.getElementsCount d.elements ≤ index →
        MI.Instance.SetElementIdx engineAllows h inst index v t =
          (.error .IndexOutOfRange, h)) ∧
      (∀ e, d.elements.find? (fun x => x.m_name == name) = some e →
        MI.compatibleType t e.m_type = false →
        MI.Instance.SetElement engineAllows h inst name v t =
          (.error .TypeMismatch, h) ∧
        MI.Instance.getByName
          (MI.Instance.SetElement engineAllows h inst name v t).2 inst name =
          MI.Instance.getByName h inst name) ∧
      (∀ (hi : index < d.elements.length),
        MI.compatibleType t (d.elements.get ⟨index, hi⟩).m_type = false →
        MI.Instance.SetElementIdx engineAllows h inst index v t =
          (.error .TypeMismatch, h)) := by
  intro eng h inst d name index v t hg hl
  refine ⟨?_, ?_, ?_, ?_⟩
  · intro habs
    have hf : d.elements.find? (fun x => x.m_name == name) = none :=
      List.find?_eq_none.mpr (fun x hx => by simpa using habs x hx)
    simp [MI.Instance.SetElement, hg, hl, MI.NativeInstanceData.setElementName, hf]
  · intro hge
    have hf : d.elements[index]? = none :=
      List.getElem?_eq_none (by simpa [MI.getElementsCount] using hge)
    simp [MI.Instance.SetElementIdx, hg, hl, MI.NativeInstanceData.setElementIdx, hf]
  · intro e hf hc
    have hres : MI.Instance.SetElement eng h inst name v t =
        (.error .TypeMismatch, h) := by
      simp [MI.Instance.SetElement, hg, hl, MI.NativeInstanceData.setElementName,
        hf, hc]
    exact ⟨hres, by rw [hres]⟩
  · intro hi hc
    have hf : d.elements[index]? = some (d.elements.get ⟨index, hi⟩) := by
      simp [List.getElem?_eq_getElem hi]
    simp only [List.get_eq_getElem] at hc
    simp [MI.Instance.SetElementIdx, hg, hl, MI.NativeInstanceData.setElementIdx,
      hf, hc]

/-- Witness for C6: on the owned example Instance, setting an absent name
fails `NotFound`, an out-of-range index fails `IndexOutOfRange`, and a
wrongly typed write to an existing element fails `TypeMismatch` leaving the
store unchanged. -/
theorem C6_setelement_failure_taxonomy_witness :
    MI.Instance.mutateGuard false Examples.instEx = true ∧
    Examples.hEx.lookup Examples.instEx.m_instance = some Examples.dEx ∧
    MI.Instance.SetElement false Examples.hEx Examples.instEx "Z" 9 .uint32 =
      (.error .NotFound, Examples.hEx) ∧
    MI.Instance.SetElementIdx false Examples.hEx Examples.instEx 5 9 .uint32 =
      (.error .IndexOutOfRange, Examples.hEx) ∧
    MI.Instance.SetElement false Examples.hEx Examples.instEx "P" 9 .boolean =
      (.error .TypeMismatch, Examples.hEx) ∧
    MI.Instance.SetElementIdx false Examples.hEx Examples.instEx 0 9 .boolean =
      (.error .TypeMismatch, Examples.hEx) := by
  have h1 := C6_setelement_failure_taxonomy false Examples.hEx Examples.instEx
    Examples.dEx "Z" 5 9 MI.MI_Type.uint32 rfl rfl
  have h2 := C6_setelement_failure_taxonomy false Examples.hEx Examples.instEx
    Examples.dEx "P" 0 9 MI.MI_Type.boolean rfl rfl
  exact ⟨rfl, rfl, h1.1 (by decide), h1.2.1 (by decide),
    (h2.2.2.1 ⟨"P", 1, .uint32, 0⟩ rfl rfl).1, h2.2.2.2 (by decide) rfl⟩

/-- C5: Clone returns a new, independently owned Instance with the same
element values, namespace, and class name, whose allocation id differs from
the source's (no aliasing); mutating any element of the clone leaves the
source's allocation untouched, and mutating the source leaves the clone's
allocation untouched. -/
theorem C5_clone_independence :
    ∀ (h : MI.Heap) (inst : MI.Instance) (d : MI.NativeInstanceData)
      (c : MI.Instance) (h2 : MI.Heap),
      h.WF →
      h.lookup inst.m_instance = some d →
      MI.Instance.Clone h inst = .ok (c, h2) →
      c.m_ownsInstance = true ∧
      c.m_namespace = inst.m_namespace ∧
      c.m_className = inst.m_className ∧
      c.m_instance ≠ inst.m_instance ∧
      h2.lookup c.m_instance = some d ∧
      h2.lookup inst.m_instance = some d ∧
      (∀ eng name v t,
        (MI.Instance.SetElement eng h2 c name v t).2.lookup inst.m_instance =
          h2.lookup inst.m_instance) ∧
      (∀ eng index v t,
        (MI.Instance.SetElementIdx eng h2 c index v t).2.lookup inst.m_instance =
          h2.lookup inst.m_instance) ∧
      (∀ eng name,
        (MI.Instance.ClearElement eng h2 c name).2.lookup inst.m_instance =
          h2.lookup inst.m_instance) ∧
      (∀ eng name v t,
        (MI.Instance.SetElement eng h2 inst name v t).2.lookup c.m_instance =
          h2.lookup c.m_instance) ∧
      (∀ eng index v t,
        (MI.Instance.SetElementIdx eng h2 inst index v t).2.lookup c.m_instance =
          h2.lookup c.m_instance) ∧
      (∀ eng name,
        (MI.Instance.ClearElement eng h2 inst name).2.lookup c.m_instance =
          h2.lookup c.m_instance) := by
  intro h inst d c h2 hwf hl hc
  have hlt : inst.m_instance < h.next := MI.lookup_lt_next h hwf _ d hl
  unfold MI.Instance.Clone at hc
  rw [hl] at hc
  simp only [MI.Heap.allocate, Except.ok.injEq, Prod.mk.injEq] at hc
  obtain ⟨hc1, hc2⟩ := hc
  subst hc1
  subst hc2
  have hne : h.next ≠ inst.m_instance := by omega
  have hns : (h.next == inst.m_instance) = false := by simpa using hne
  refine ⟨rfl, rfl, rfl, by simpa using hne, ?_, ?_, ?_, ?_, ?_, ?_, ?_, ?_⟩
  · simp [MI.Heap.lookup, MI.cellsLookup]
  · simp only [MI.Heap.lookup, MI.cellsLookup, hns, if_false]
    simpa [MI.Heap.lookup] using hl
  · intro eng name v t
    exact MI.setElement_lookup_ne eng _ _ name v t inst.m_instance
      (fun hh => hne hh.symm)
  · intro eng index v t
    exact MI.setElementIdx_lookup_ne eng _ _ index v t inst.m_instance
      (fun hh => hne hh.symm)
  · intro eng name
    exact MI.clearElement_lookup_ne eng _ _ name inst.m_instance
      (fun hh => hne hh.symm)
  · intro eng name v t
    exact MI.setElement_lookup_ne eng _ _ name v t h.next hne
  · intro eng index v t
    exact MI.setElementIdx_lookup_ne eng _ _ index v t h.next hne
  · intro eng name
    exact MI.clearElement_lookup_ne eng _ _ name h.next hne

/-- Witness for C5: cloning the concrete owned Instance yields a distinct
allocation, and a write to the clone leaves the source allocation's lookup
unchanged (and vice versa). -/
theorem C5_clone_independence_witness :
    Examples.hEx.WF ∧
    Examples.hEx.lookup Examples.instEx.m_instance = some Examples.dEx ∧
    MI.Instance.Clone Examples.hEx Examples.instEx =
      .ok (Examples.cEx, Examples.hEx2) ∧
    Examples.cEx.m_instance ≠ Examples.instEx.m_instance ∧
    (MI.Instance.SetElement true Examples.hEx2 Examples.cEx "P" 9 .uint32).2.lookup
      Examples.instEx.m_instance = Examples.hEx2.lookup Examples.instEx.m_instance ∧
    (MI.Instance.SetElement true Examples.hEx2 Examples.instEx "P" 9 .uint32).2.lookup
      Examples.cEx.m_instance = Examples.hEx2.lookup Examples.cEx.m_instance := by
  have hT := C5_clone_independence Examples.hEx Examples.instEx Examples.dEx
    Examples.cEx Examples.hEx2 (by decide) rfl rfl
  exact ⟨by decide, rfl, rfl, hT.2.2.2.1,
    hT.2.2.2.2.2.2.1 true "P" 9 MI.MI_Type.uint32,
    hT.2.2.2.2.2.2.2.2.2.1 true "P" 9 MI.MI_Type.uint32⟩

/-- C3: for every Instance (with a live allocation) and every Class whose
element names are unique, indexed access and named access enumerate the same
element bag: index access succeeds exactly below `count()` and fails
`IndexOutOfRange` exactly at or above it; name access succeeds exactly on
present names and fails `NotFound` exactly on absent ones; the element at
index `i` is retrieved by its own name with the same value, type, and flags;
and no element appears twice (distinct indices carry distinct names). -/
theorem C3_name_and_index_access_agree :
    ∀ (h : MI.Heap) (inst : MI.Instance) (d : MI.NativeInstanceData)
      (c : MI.Class),
      h.lookup inst.m_instance = some d →
      (d.elements.map (fun x => x.m_name)).Nodup →
      (c.m_class.elements.map (fun x => x.m_name)).Nodup →
      ((∀ i, (∃ r, MI.Instance.getByIndex h inst i = .ok r) ↔
          i < MI.getElementsCount d.elements) ∧
        (∀ i, MI.Instance.getByIndex h inst i = .error .IndexOutOfRange ↔
          MI.getElementsCount d.elements ≤ i) ∧
        (∀ name, (∃ r, MI.Instance.getByName h inst name = .ok r) ↔
          ∃ e ∈ d.elements, e.m_name = name) ∧
        (∀ name, MI.Instance.getByName h inst name = .error .NotFound ↔
          ¬ ∃ e ∈ d.elements, e.m_name = name) ∧
        (∀ i (hi : i < d.elements.length),
          MI.Instance.getByIndex h inst i = .ok ((d.elements.get ⟨i, hi⟩).m_name,
            (d.elements.get ⟨i, hi⟩).m_value, (d.elements.get ⟨i, hi⟩).m_type,
            (d.elements.get ⟨i, hi⟩).m_flags) ∧
          MI.Instance.getByName h inst (d.elements.get ⟨i, hi⟩).m_name =
            .ok ((d.elements.get ⟨i, hi⟩).m_value, (d.elements.get ⟨i, hi⟩).m_type,
              (d.elements.get ⟨i, hi⟩).m_flags)) ∧
        (∀ i j (hi : i < d.elements.length) (hj : j < d.elements.length),
          (d.elements.get ⟨i, hi⟩).m_name = (d.elements.get ⟨j, hj⟩).m_name →
          i = j)) ∧
      ((∀ i, (∃ r, MI.Class.getByIndex c i = .ok r) ↔ i < MI.Class.elemCount c) ∧
        (∀ i, MI.Class.getByIndex c i = .error .IndexOutOfRange ↔
          MI.Class.elemCount c ≤ i) ∧
        (∀ name, (∃ r, MI.Class.getByName c name = .ok r) ↔
          ∃ e ∈ c.m_class.elements, e.m_name = name) ∧
        (∀ name, MI.Class.getByName c name = .error .NotFound ↔
          ¬ ∃ e ∈ c.m_class.elements, e.m_name = name) ∧
        (∀ i (hi : i < c.m_class.elements.length),
          MI.Class.getByIndex c i = .ok ((c.m_class.elements.get ⟨i, hi⟩).m_name,
            (c.m_class.elements.get ⟨i, hi⟩).m_value,
            (c.m_class.elements.get ⟨i, hi⟩).m_type,
            (c.m_class.elements.get ⟨i, hi⟩).m_flags) ∧
          MI.Class.getByName c (c.m_class.elements.get ⟨i, hi⟩).m_name =
            .ok ((c.m_class.elements.get ⟨i, hi⟩).m_value,
              (c.m_class.elements.get ⟨i, hi⟩).m_type,
              (c.m_class.elements.get ⟨i, hi⟩).m_flags)) ∧
        (∀ i j (hi : i < c.m_class.elements.length)
          (hj : j < c.m_class.elements.length),
          (c.m_class.elements.get ⟨i, hi⟩).m_name =
            (c.m_class.elements.get ⟨j, hj⟩).m_name → i = j)) := by
  intro h inst d c hl hnI hnC
  have hIdx : ∀ i, MI.Instance.getByIndex h inst i =
      MI.getElementByIndex d.elements i := by
    intro i
    simp [MI.Instance.getByIndex, hl]
  have hName : ∀ name, MI.Instance.getByName h inst name =
      MI.getElementByName d.elements name := by
    intro name
    simp [MI.Instance.getByName, hl]
  obtain ⟨a1, a2, a3, a4, a5, a6⟩ := MI.elementAccessAgreement d.elements hnI
  obtain ⟨b1, b2, b3, b4, b5, b6⟩ :=
    MI.elementAccessAgreement c.m_class.elements hnC
  constructor
  · refine ⟨?_, ?_, ?_, ?_, ?_, a6⟩
    · intro i
      rw [show (∃ r, MI.Instance.getByIndex h inst i = .ok r) ↔
          (∃ r, MI.getElementByIndex d.elements i = .ok r) by rw [hIdx i]]
      exact a1 i
    · intro i
      rw [hIdx i]
      exact a2 i
    · intro name
      rw [show (∃ r, MI.Instance.getByName h inst name = .ok r) ↔
          (∃ r, MI.getElementByName d.elements name = .ok r) by rw [hName name]]
      exact a3 name
    · intro name
      rw [hName name]
      exact a4 name
    · intro i hi
      rw [hIdx i, hName (d.elements.get ⟨i, hi⟩).m_name]
      exact a5 i hi
  · exact ⟨b1, b2, b3, b4, b5, b6⟩

/-- Witness for C3: on the concrete example Instance and Class, name access
finds a present element, index access fails exactly out of range, and the
class-side index access succeeds in range. -/
theorem C3_name_and_index_access_agree_witness :
    Examples.hEx.lookup Examples.instEx.m_instance = some Examples.dEx ∧
    (Examples.dEx.elements.map (fun x => x.m_name)).Nodup ∧
    (Examples.clsEx.m_class.elements.map (fun x => x.m_name)).Nodup ∧
    (∃ r, MI.Instance.getByName Examples.hEx Examples.instEx "P" = .ok r) ∧
    (MI.Instance.getByIndex Examples.hEx Examples.instEx 5 =
      .error .IndexOutOfRange) ∧
    (∃ r, MI.Class.getByIndex Examples.clsEx 1 = .ok r) := by
  have hT := C3_name_and_index_access_agree Examples.hEx Examples.instEx
    Examples.dEx Examples.clsEx rfl (by decide) (by decide)
  refine ⟨rfl, by decide, by decide, ?_, ?_, ?_⟩
  · exact (hT.1.2.2.1 "P").mpr ⟨⟨"P", 1, .uint32, 0⟩, by decide, rfl⟩
  · exact (hT.1.2.1 5).mpr (by decide)
  · exact (hT.2.1 1).mpr (by decide)

theorem setImpersonationType_snd (s : String)
    (nativeSet : MI.MI_DestinationOptions_ImpersonationType →
      Except PyMI.CppExc Unit) :
    (PyMI.DestinationOptions_SetImpersonationType (some s) nativeSet).2 =
      some (PyMI.impersLookup s) := by
  unfold PyMI.DestinationOptions_SetImpersonationType
  cases hn : nativeSet (PyMI.impersLookup s) <;> simp [hn]

theorem impersLoop_not_mem (s : String) (entries : List String) (i : Nat)
    (hs : s ∉ entries) : PyMI.impersLoop s entries i = .None := by
  induction entries generalizing i with
  | nil => rfl
  | cons e rest ih =>
    have h1 : s ≠ e := fun hh => hs (hh ▸ List.mem_cons_self e rest)
    have h2 : s ∉ rest := fun hh => hs (List.mem_cons_of_mem e hh)
    have hne : (e == s) = false := by simpa using fun hh => h1 hh.symm
    rw [PyMI.impersLoop, hne]
    simpa using ih (i + 1) h2

/-- C9: a string equal to the i-th entry of the impersonation table
("default", "none", "identify", "impersonate", "delegate") makes
`set_impersonation_level` pass the enum value of index i to the engine; a
string not in the table is not rejected — the engine impersonation type is
silently set to `None` and, provided the native setter accepts it, the call
returns success. -/
theorem C9_impersonation_level_mapping :
    ∀ (s : String)
      (nativeSet : MI.MI_DestinationOptions_ImpersonationType →
        Except PyMI.CppExc Unit),
      (∀ i, i < PyMI.impersEnum.length → s = PyMI.impersEnum.getD i "" →
        (PyMI.DestinationOptions_SetImpersonationType (some s) nativeSet).2 =
          some (MI.MI_DestinationOptions_ImpersonationType.castNat i)) ∧
      (s ∉ PyMI.impersEnum →
        (PyMI.DestinationOptions_SetImpersonationType (some s) nativeSet).2 =
          some .None ∧
        (nativeSet .None = .ok () →
          (PyMI.DestinationOptions_SetImpersonationType (some s) nativeSet).1 =
            .ok ())) := by
  intro s nativeSet
  constructor
  · intro i hi hs
    rw [setImpersonationType_snd s nativeSet]
    subst hs
    have hi5 : i < 5 := by simpa [PyMI.impersEnum] using hi
    interval_cases i <;> rfl
  · intro hs
    have hlook : PyMI.impersLookup s = .None :=
      impersLoop_not_mem s PyMI.impersEnum 0 hs
    constructor
    · rw [setImpersonationType_snd s nativeSet, hlook]
    · intro hok
      unfold PyMI.DestinationOptions_SetImpersonationType
      simp [hlook, hok]

/-- Witness for C9: "impersonate" (entry 3) maps to enum value 3, and the
unknown string "bogus" silently maps to `None` and succeeds. -/
theorem C9_impersonation_level_mapping_witness :
    (3 < PyMI.impersEnum.length ∧ "impersonate" = PyMI.impersEnum.getD 3 "") ∧
    (PyMI.DestinationOptions_SetImpersonationType (some "impersonate")
      (fun _ => .ok ())).2 =
      some (MI.MI_DestinationOptions_ImpersonationType.castNat 3) ∧
    "bogus" ∉ PyMI.impersEnum ∧
    (PyMI.DestinationOptions_SetImpersonationType (some "bogus")
      (fun _ => .ok ())).2 = some .None ∧
    (PyMI.DestinationOptions_SetImpersonationType (some "bogus")
      (fun _ => .ok ())).1 = .ok () := by
  have h1 := C9_impersonation_level_mapping "impersonate" (fun _ => .ok ())
  have h2 := C9_impersonation_level_mapping "bogus" (fun _ => .ok ())
  exact ⟨⟨by decide, rfl⟩, h1.1 3 (by decide) rfl, by decide,
    (h2.2 (by decide)).1, (h2.2 (by decide)).2 rfl⟩

/-- C10: every public DestinationOptions binding function either returns a
value with no Python error set, or returns the null/error result with a
Python error recorded — and whenever the underlying native call throws a
C++ exception, that exception is the one recorded and null is returned, so
a native exception never propagates across the binding boundary. -/
theorem C10_bindings_catch_all_native_exceptions :
    ∀ (α : Type) (nativeClone : Except PyMI.CppExc α)
      (nativeGet : Except PyMI.CppExc String)
      (argsU : Option String)
      (nativeSetU : String → Except PyMI.CppExc Unit)
      (argsI : Option String)
      (nativeSetI : MI.MI_DestinationOptions_ImpersonationType →
        Except PyMI.CppExc Unit),
      ((∃ a, PyMI.DestinationOptions_Clone nativeClone = .ok a) ∨
        (∃ e, PyMI.DestinationOptions_Clone nativeClone = .errNull e)) ∧
      (∀ ex, nativeClone = .error ex →
        PyMI.DestinationOptions_Clone nativeClone = .errNull (.fromExc ex)) ∧
      (∀ a, nativeClone = .ok a →
        PyMI.DestinationOptions_Clone nativeClone = .ok a) ∧
      ((∃ a, PyMI.DestinationOptions_GetUILocale nativeGet = .ok a) ∨
        (∃ e, PyMI.DestinationOptions_GetUILocale nativeGet = .errNull e)) ∧
      (∀ ex, nativeGet = .error ex →
        PyMI.DestinationOptions_GetUILocale nativeGet = .errNull (.fromExc ex)) ∧
      (∀ a, nativeGet = .ok a →
        PyMI.DestinationOptions_GetUILocale nativeGet = .ok a) ∧
      ((∃ a, PyMI.DestinationOptions_SetUILocale argsU nativeSetU = .ok a) ∨
        (∃ e, PyMI.DestinationOptions_SetUILocale argsU nativeSetU = .errNull e)) ∧
      (argsU = none →
        PyMI.DestinationOptions_SetUILocale argsU nativeSetU =
          .errNull .parseError) ∧
      (∀ locale ex, argsU = some locale → nativeSetU locale = .error ex →
        PyMI.DestinationOptions_SetUILocale argsU nativeSetU =
          .errNull (.fromExc ex)) ∧
      (∀ locale, argsU = some locale → nativeSetU locale = .ok () →
        PyMI.DestinationOptions_SetUILocale argsU nativeSetU = .ok ()) ∧
      ((∃ a, (PyMI.DestinationOptions_SetImpersonationType argsI nativeSetI).1 =
          .ok a) ∨
        (∃ e, (PyMI.DestinationOptions_SetImpersonationType argsI nativeSetI).1 =
          .errNull e)) ∧
      (argsI = none →
        (PyMI.DestinationOptions_SetImpersonationType argsI nativeSetI).1 =
          .errNull .parseError) ∧
      (∀ s ex, argsI = some s →
        nativeSetI (PyMI.impersLookup s) = .error ex →
        (PyMI.DestinationOptions_SetImpersonationType argsI nativeSetI).1 =
          .errNull (.fromExc ex)) ∧
      (∀ s, argsI = some s → nativeSetI (PyMI.impersLookup s) = .ok () →
        (PyMI.DestinationOptions_SetImpersonationType argsI nativeSetI).1 =
          .ok ()) := by
  intro α nativeClone nativeGet argsU nativeSetU argsI nativeSetI
  refine ⟨?_, ?_, ?_, ?_, ?_, ?_, ?_, ?_, ?_, ?_, ?_, ?_, ?_, ?_⟩
  · cases nativeClone with
    | ok a => exact Or.inl ⟨a, rfl⟩
    | error ex => exact Or.inr ⟨.fromExc ex, rfl⟩
  · intro ex hex
    rw [hex]
    rfl
  · intro a ha
    rw [ha]
    rfl
  · cases nativeGet with
    | ok a => exact Or.inl ⟨a, rfl⟩
    | error ex => exact Or.inr ⟨.fromExc ex, rfl⟩
  · intro ex hex
    rw [hex]
    rfl
  · intro a ha
    rw [ha]
    rfl
  · cases argsU with
    | none => exact Or.inr ⟨.parseError, rfl⟩
    | some locale =>
      cases hn : nativeSetU locale with
      | ok u =>
        exact Or.inl ⟨(), by simp [PyMI.DestinationOptions_SetUILocale, hn]⟩
      | error ex =>
        exact Or.inr ⟨.fromExc ex, by simp [PyMI.DestinationOptions_SetUILocale, hn]⟩
  · intro ha
    rw [ha]
    rfl
  · intro locale ex ha hn
    rw [ha]
    simp [PyMI.DestinationOptions_SetUILocale, hn]
  · intro locale ha hn
    rw [ha]
    simp [PyMI.DestinationOptions_SetUILocale, hn]
  · cases argsI with
    | none => exact Or.inr ⟨.parseError, rfl⟩
    | some s =>
      cases hn : nativeSetI (PyMI.impersLookup s) with
      | ok u =>
        exact Or.inl ⟨(),
          by simp [PyMI.DestinationOptions_SetImpersonationType, hn]⟩
      | error ex =>
        exact Or.inr ⟨.fromExc ex,
          by simp [PyMI.DestinationOptions_SetImpersonationType, hn]⟩
  · intro ha
    rw [ha]
    rfl
  · intro s ex ha hn
    rw [ha]
    simp [PyMI.DestinationOptions_SetImpersonationType, hn]
  · intro s ha hn
    rw [ha]
    simp [PyMI.DestinationOptions_SetImpersonationType, hn]

/-- Witness for C10: concrete native behaviors — a throwing Clone, a
succeeding GetUILocale, an unparsable SetUILocale argument, and a throwing
impersonation setter — all yield a recorded error or a clean value, never an
escaped exception. -/
theorem C10_bindings_catch_all_native_exceptions_witness :
    PyMI.DestinationOptions_Clone (Except.error "boom" :
        Except PyMI.CppExc Nat) = .errNull (.fromExc "boom") ∧
    PyMI.DestinationOptions_GetUILocale (.ok "en-US") = .ok "en-US" ∧
    PyMI.DestinationOptions_SetUILocale none (fun _ => .ok ()) =
      .errNull .parseError ∧
    (PyMI.DestinationOptions_SetImpersonationType (some "none")
      (fun _ => .error "down")).1 = .errNull (.fromExc "down") := by
  have hT := C10_bindings_catch_all_native_exceptions Nat (.error "boom")
    (.ok "en-US") none (fun _ => .ok ()) (some "none") (fun _ => .error "down")
  exact ⟨hT.2.1 "boom" rfl, hT.2.2.2.2.2.1 "en-US" rfl, hT.2.2.2.2.2.2.2.1 rfl,
    hT.2.2.2.2.2.2.2.2.2.2.2.2.1 "none" "down" rfl rfl⟩
